import Mathlib

/-!
Verification of the `ots` command-line time-tracking tool (`src/ots/cli.py`)
against its natural-language specification.

The CLI layer is embedded from `src/ots/cli.py`.  The timesheet store the CLI
drives (`TimesheetFileStore`, module `ots/timesheet_filestore.py`) and the
schema migrator (`ots/migration/migrate.py`) are not part of the staged
sources, so their operations are modelled from the specification (sections
3, 4 and 4.7 of spec.md); each such definition carries a
`Modelled from the spec:` doc comment.
-/

namespace Ots

/-- Error taxonomy of spec.md section 7. -/
inductive OtsError where
  | FormatError
  | AddressError
  | ValidationError
  | NoHistoryError
  | MigrationRequiredError
  | UnsupportedVersionError
  | AuthError
  | NetworkError
deriving Repr, DecidableEq

/-- Modelled from the spec: one timesheet record of `TimesheetFileStore`
(spec.md section 3, "Entry"); the store module is not in the staged sources.
Dates are day numbers (`Int`), times are minutes (`Nat`). -/
structure Entry where
  date : Int
  task_code : Option String
  task_id : Option Int
  project_id : Option Int
  description : Option String
  duration : Nat
  is_worktime : Bool
  running : Bool
  start_time : Option Nat
  remote_ref : Option Nat
deriving Repr, DecidableEq

/-- Modelled from the spec: an alias record (spec.md section 3, "Alias");
the name is kept as the key of the store's association list. -/
structure AliasRec where
  task_code : Option String
  task_id : Option Int
  project_id : Option Int
  description : Option String
deriving Repr, DecidableEq

/-- The date-partitioned log: association list from date to that day's
entries, ordered by position. -/
abbrev Days := List (Int × List Entry)

/-- Modelled from the spec: the root aggregate (spec.md section 3, "Store"):
day logs, alias table, the previous-running stack for resume alternation,
a schema version and the remote session. -/
structure TimesheetFileStore where
  days : Days
  aliases : List (String × AliasRec)
  prevRunning : List (Int × Nat)
  schema_version : Nat
  session : Option Nat
deriving Repr, DecidableEq

/-- Number of entries of one day whose `running` flag is set. -/
def countRunning : List Entry → Nat
  | [] => 0
  | e :: es => (if e.running then 1 else 0) + countRunning es

/-- Number of running entries across a day log. -/
def countDays : Days → Nat
  | [] => 0
  | (_, es) :: rest => countRunning es + countDays rest

/-- Number of running entries across the whole store. -/
def countRunningStore (st : TimesheetFileStore) : Nat :=
  countDays st.days

/-- The entries of one date (first matching day log; `[]` when the day has
no log yet). -/
def getDay (d : Int) : Days → List Entry
  | [] => []
  | (d', es) :: rest => if d' = d then es else getDay d rest

/-- Apply `f` to the entry at one position of a day, leaving the rest alone. -/
def modifyIdx (f : Entry → Entry) : Nat → List Entry → List Entry
  | _, [] => []
  | 0, e :: es => f e :: es
  | n + 1, e :: es => e :: modifyIdx f n es

/-- Remove the entry at one position of a day. -/
def removeIdx : Nat → List Entry → List Entry
  | _, [] => []
  | 0, _ :: es => es
  | n + 1, e :: es => e :: removeIdx n es

/-- Apply `f` to the day log of one date (first match only). -/
def modifyDay (f : List Entry → List Entry) (d : Int) : Days → Days
  | [] => []
  | (d', es) :: rest =>
      if d' = d then (d', f es) :: rest else (d', es) :: modifyDay f d rest

/-- Append an entry at the end of a date's day log, creating the day log
lazily on first use (spec.md section 3, "Day Log" lifecycle). -/
def appendToDay (d : Int) (e : Entry) : Days → Days
  | [] => [(d, [e])]
  | (d', es) :: rest =>
      if d' = d then (d', es ++ [e]) :: rest else (d', es) :: appendToDay d e rest

/-- Position of the first running entry of a day, if any. -/
def findRunningInDay : List Entry → Option Nat
  | [] => none
  | e :: es => if e.running then some 0 else (findRunningInDay es).map (· + 1)

/-- Modelled from the spec: closing a running entry (spec.md section 4.3):
the elapsed time `now - start_time` accrues additively onto the stored
duration, `running` is cleared and `start_time` dropped. -/
def closeEntry (now : Nat) (e : Entry) : Entry :=
  if e.running then
    { e with duration := e.duration + (now - e.start_time.getD now),
             running := false, start_time := none }
  else e

/-- Close the first running entry found anywhere in the day logs, returning
the new logs and the address of the closed entry (if one was running). -/
def stopDays (now : Nat) : Days → Days × Option (Int × Nat)
  | [] => ([], none)
  | (d, es) :: rest =>
      match findRunningInDay es with
      | some i => ((d, modifyIdx (closeEntry now) i es) :: rest, some (d, i))
      | none =>
          let r := stopDays now rest
          ((d, es) :: r.1, r.2)

/-- Modelled from the spec: the address resolver (spec.md section 4.2). The
token is the already-parsed pair (date offset `D`, position `N`); `N` alone
is `(0, N)`. Fails when the day has no log or the position is out of
range. -/
def resolveAddr (today : Int) (tok : Nat × Nat) (days : Days) : Option (Int × Nat) :=
  let d := today - (tok.1 : Int)
  if tok.2 < (getDay d days).length then some (d, tok.2) else none

/-- First alias of the table with the given name. -/
def lookupAlias (n : String) : List (String × AliasRec) → Option AliasRec
  | [] => none
  | (m, a) :: rest => if m = n then some a else lookupAlias n rest

/-- The fields a new entry is created from, after alias expansion. -/
structure EntrySpec where
  task_code : Option String
  task_id : Option Int
  project_id : Option Int
  description : Option String
deriving Repr, DecidableEq

/-- Modelled from the spec: alias expansion (spec.md sections 4.5 and 9):
when `task_code` names an alias, the alias template's fields fill in
whatever the caller left out; otherwise the fields pass through. -/
def resolveSpec (task_code description : Option String) (task_id project_id : Option Int)
    (aliases : List (String × AliasRec)) : EntrySpec :=
  match task_code with
  | some tc =>
      match lookupAlias tc aliases with
      | some a =>
          { task_code := a.task_code, task_id := task_id <|> a.task_id,
            project_id := project_id <|> a.project_id,
            description := description <|> a.description }
      | none =>
          { task_code := some tc, task_id := task_id, project_id := project_id,
            description := description }
  | none =>
      { task_code := none, task_id := task_id, project_id := project_id,
        description := description }

/-- Modelled from the spec: `stop_running` (spec.md section 4.3): if an entry
is running, close it and push its address onto the previous-running stack;
no-op when idle. -/
def stop_running (now : Nat) (st : TimesheetFileStore) : TimesheetFileStore :=
  let r := stopDays now st.days
  { st with days := r.1,
            prevRunning := match r.2 with
              | some a => a :: st.prevRunning
              | none => st.prevRunning }

/-- Modelled from the spec: `add_and_start_timesheet` (spec.md section 4.3):
stop any running entry (pushing it onto the previous-running stack), then
append a new entry with `running = true` and `start_time = now` to today's
day log. -/
def add_and_start_timesheet (now : Nat) (today : Int)
    (task_code description : Option String) (task_id project_id : Option Int)
    (is_worktime : Bool) (st : TimesheetFileStore) : TimesheetFileStore :=
  let sp := resolveSpec task_code description task_id project_id st.aliases
  let st1 := stop_running now st
  let e : Entry :=
    { date := today, task_code := sp.task_code, task_id := sp.task_id,
      project_id := sp.project_id, description := sp.description, duration := 0,
      is_worktime := is_worktime, running := true, start_time := some now,
      remote_ref := none }
  { st1 with days := appendToDay today e st1.days }

/-- Re-open one entry: `running := true`, `start_time := now`, keeping the
accumulated duration as the additive base (spec.md section 4.3, resume). -/
def reopenEntry (now : Nat) (e : Entry) : Entry :=
  { e with running := true, start_time := some now }

/-- Re-open the entry at an address. -/
def setRunningAt (now : Nat) (a : Int × Nat) (st : TimesheetFileStore) : TimesheetFileStore :=
  { st with days := modifyDay (modifyIdx (reopenEntry now) a.2) a.1 st.days }

/-- Modelled from the spec: `resume` (spec.md section 4.3). With an index:
resolve it, stop the current running entry (pushing it to the stack) and
re-open the addressed one. Without: pop the previous-running stack (failing
with `NoHistoryError` when empty), stop the current running entry onto the
stack, and re-open the popped one. -/
def resume (now : Nat) (today : Int) (idx : Option (Nat × Nat))
    (st : TimesheetFileStore) : Except OtsError TimesheetFileStore :=
  match idx with
  | some tok =>
      match resolveAddr today tok st.days with
      | none => .error .AddressError
      | some a => .ok (setRunningAt now a (stop_running now st))
  | none =>
      match st.prevRunning with
      | [] => .error .NoHistoryError
      | a :: rest =>
          .ok (setRunningAt now a (stop_running now { st with prevRunning := rest }))

/-- Modelled from the spec: `add_timesheet` (spec.md section 4.3): append a
closed entry (`running = false`) to the given date's day log; never touches
the timer state machine. -/
def add_timesheet (today : Int) (task_code description : Option String)
    (date : Option Int) (duration : Option Nat) (task_id project_id : Option Int)
    (st : TimesheetFileStore) : TimesheetFileStore :=
  let d := date.getD today
  let sp := resolveSpec task_code description task_id project_id st.aliases
  let e : Entry :=
    { date := d, task_code := sp.task_code, task_id := sp.task_id,
      project_id := sp.project_id, description := sp.description,
      duration := duration.getD 0, is_worktime := true, running := false,
      start_time := none, remote_ref := none }
  { st with days := appendToDay d e st.days }

/-- A duration edit: plain `HH:mm` replaces, `+HH:mm` / `-HH:mm` adjust the
existing value, clamped at 0 (spec.md section 4.1). Minutes resolution. -/
inductive DurEdit where
  | replace (m : Nat)
  | inc (m : Nat)
  | dec (m : Nat)
deriving Repr, DecidableEq

/-- Partial update of one entry: only the fields given change; a duration
delta adjusts rather than replaces, clamped at 0 (spec.md section 4.4). -/
def Entry.edited (e : Entry) (description : Option String) (duration : Option DurEdit)
    (task_code : Option String) (task_id project_id : Option Int) : Entry :=
  { e with
    description := (description.map some).getD e.description
    task_code := (task_code.map some).getD e.task_code
    task_id := (task_id.map some).getD e.task_id
    project_id := (project_id.map some).getD e.project_id
    duration :=
      match duration with
      | none => e.duration
      | some (.replace m) => m
      | some (.inc m) => e.duration + m
      | some (.dec m) => e.duration - m }

/-- A default entry, used only to read a position the resolver has already
checked to be in range. -/
def defaultEntry : Entry :=
  { date := 0, task_code := none, task_id := none, project_id := none,
    description := none, duration := 0, is_worktime := true, running := false,
    start_time := none, remote_ref := none }

/-- Modelled from the spec: `edit_timesheet` (spec.md section 4.4): resolve
the address, apply the partial update and report whether any field actually
changed. -/
def edit_timesheet (today : Int) (tok : Nat × Nat) (description : Option String)
    (duration : Option DurEdit) (task_code : Option String)
    (task_id project_id : Option Int) (st : TimesheetFileStore) :
    Except OtsError (TimesheetFileStore × Bool) :=
  match resolveAddr today tok st.days with
  | none => .error .AddressError
  | some a =>
      let e := (getDay a.1 st.days).getD a.2 defaultEntry
      let e' := e.edited description duration task_code task_id project_id
      let days' :=
        modifyDay
          (modifyIdx (fun x => x.edited description duration task_code task_id project_id) a.2)
          a.1 st.days
      .ok ({ st with days := days' }, decide (e' ≠ e))

/-- Modelled from the spec: `drop_timesheet` (spec.md section 4.4): resolve
the address and remove the entry, renumbering later entries of the day. -/
def drop_timesheet (today : Int) (tok : Nat × Nat) (st : TimesheetFileStore) :
    Except OtsError TimesheetFileStore :=
  match resolveAddr today tok st.days with
  | none => .error .AddressError
  | some a => .ok { st with days := modifyDay (removeIdx a.2) a.1 st.days }

/-- Refresh one alias's cached description from the remote backend's titles
(`titles` is the backend oracle: identifier to current title, `none` for a
per-alias lookup failure, which leaves the alias as it was). -/
def refreshAlias (titles : Int → Option String) (a : AliasRec) : AliasRec :=
  match a.task_id with
  | some tid =>
      match titles tid with
      | some t => { a with description := some t }
      | none => a
  | none =>
      match a.project_id with
      | some pid =>
          match titles pid with
          | some t => { a with description := some t }
          | none => a
      | none => a

/-- Modelled from the spec: `update_alias` — the alias refresh operation
(spec.md section 4.5, `refresh(name | all)`): with a name, refresh that
alias; with none (the `--all` form), refresh every alias, per-alias
failures not aborting the bulk refresh. -/
def update_alias (titles : Int → Option String) (name : Option String)
    (st : TimesheetFileStore) : TimesheetFileStore :=
  match name with
  | none =>
      { st with aliases := st.aliases.map (fun p => (p.1, refreshAlias titles p.2)) }
  | some nm =>
      { st with aliases :=
          st.aliases.map (fun p => if p.1 = nm then (p.1, refreshAlias titles p.2) else p) }

/-- Submit one entry to the backend unless it already carries a
`remote_ref`; a backend failure (`none`) leaves the entry without one
(spec.md section 4.6). -/
def pushEntry (backend : Entry → Option Nat) (e : Entry) : Entry :=
  if e.remote_ref.isSome then e
  else
    match backend e with
    | some r => { e with remote_ref := some r }
    | none => e

/-- Modelled from the spec: the store's `push` (spec.md section 4.6). Entry
selection: an explicit index, else all entries of the given date, else all
entries of today. -/
def pushStore (backend : Entry → Option Nat) (today : Int) (index : Option (Nat × Nat))
    (date : Option Int) (st : TimesheetFileStore) : Except OtsError TimesheetFileStore :=
  match index with
  | some tok =>
      match resolveAddr today tok st.days with
      | none => .error .AddressError
      | some a => .ok { st with days := modifyDay (modifyIdx (pushEntry backend) a.2) a.1 st.days }
  | none =>
      let d := date.getD today
      .ok { st with days := modifyDay (List.map (pushEntry backend)) d st.days }

/-- Modelled from the spec: the store's `login` at the remote-backend
boundary (spec.md section 6): the backend oracle yields a uid on success
(`storeLogin` records the session) and `none` on failure (`AuthError`). -/
def storeLogin (backendUid : Option Nat) (st : TimesheetFileStore) :
    Except OtsError (TimesheetFileStore × Nat) :=
  match backendUid with
  | some uid => .ok ({ st with session := some uid }, uid)
  | none => .error .AuthError

/-- Modelled from the spec: the schema version the current code expects
(spec.md section 4.7); the migration module is not in the staged sources. -/
def EXPECTED_SCHEMA_VERSION : Nat := 1

/-- Modelled from the spec: one version-to-version upgrader of the ordered
migration chain (spec.md sections 4.7 and 9); it re-tags the store with the
next schema version. -/
def migrateStep (st : TimesheetFileStore) : TimesheetFileStore :=
  { st with schema_version := st.schema_version + 1 }

/-- Apply `n` upgraders of the migration chain in order. -/
def runMigrations : Nat → TimesheetFileStore → TimesheetFileStore
  | 0, st => st
  | n + 1, st => runMigrations n (migrateStep st)

/-- Modelled from the spec: `check_and_migrate` (spec.md section 4.7):
no-op at the expected version; older stores are upgraded when
`auto_migrate` holds and refused with `MigrationRequiredError` otherwise;
newer stores are refused with `UnsupportedVersionError`. -/
def check_and_migrate (auto_migrate : Bool) (st : TimesheetFileStore) :
    Except OtsError TimesheetFileStore :=
  if st.schema_version = EXPECTED_SCHEMA_VERSION then .ok st
  else if st.schema_version < EXPECTED_SCHEMA_VERSION then
    if auto_migrate then .ok (runMigrations (EXPECTED_SCHEMA_VERSION - st.schema_version) st)
    else .error .MigrationRequiredError
  else .error .UnsupportedVersionError

/-- The configuration dictionary of `config.json` (`_load_config`,
cli.py lines 26-34): each key the CLI reads, absent keys as `none`.
A missing configuration file loads as the empty dictionary, i.e. all
fields `none`. -/
structure Config where
  auto_migrate : Option Bool
  filestore : Option String
  odoo_hostname : Option String
  odoo_login : Option String
  ssl : Option Bool
  odoo_port : Option String
  odoo_db : Option String
deriving Repr, DecidableEq

/-- The empty configuration dictionary (`_load_config` on an absent file). -/
def emptyConfig : Config :=
  { auto_migrate := none, filestore := none, odoo_hostname := none,
    odoo_login := none, ssl := none, odoo_port := none, odoo_db := none }

/-- `obj.get('config', {}).get('auto_migrate', True)` of cli.py line 57:
the flag passed to `check_and_migrate`, defaulting to `true`. -/
def effectiveAutoMigrate (c : Config) : Bool :=
  c.auto_migrate.getD true

/-- The `ots_filestore` context manager (cli.py lines 54-61) together with
the transaction it runs in (`db.transaction()`): the migration check runs
first with the configured flag, then the command's body on the migrated
store; the transaction commits the body's final store on success and
discards every change — yielding the original store — on failure. -/
def ots_command {α : Type} (cfg : Config)
    (body : TimesheetFileStore → Except OtsError (TimesheetFileStore × α))
    (st : TimesheetFileStore) : TimesheetFileStore × Except OtsError α :=
  match check_and_migrate (effectiveAutoMigrate cfg) st with
  | .error e => (st, .error e)
  | .ok st1 =>
      match body st1 with
      | .error e => (st, .error e)
      | .ok r => (r.1, .ok r.2)

/-- The `start` command (cli.py lines 134-153): add and start a timesheet,
`is_worktime` left at its default (work time). -/
def start_command (cfg : Config) (now : Nat) (today : Int)
    (task_code description : Option String) (task_id project_id : Option Int)
    (st : TimesheetFileStore) : TimesheetFileStore × Except OtsError Unit :=
  ots_command cfg
    (fun s => .ok (add_and_start_timesheet now today task_code description task_id project_id
      true s, ())) st

/-- The `lunch` command (cli.py lines 244-254): start a running entry with
description "Lunch" and `is_worktime = False`. -/
def lunch_command (cfg : Config) (now : Nat) (today : Int)
    (st : TimesheetFileStore) : TimesheetFileStore × Except OtsError Unit :=
  ots_command cfg
    (fun s => .ok (add_and_start_timesheet now today none (some "Lunch") none none false s, ()))
    st

/-- The `stop` command (cli.py lines 156-161). -/
def stop_command (cfg : Config) (now : Nat) (st : TimesheetFileStore) :
    TimesheetFileStore × Except OtsError Unit :=
  ots_command cfg (fun s => .ok (stop_running now s, ())) st

/-- The `resume` command (cli.py lines 257-271). -/
def resume_command (cfg : Config) (now : Nat) (today : Int) (idx : Option (Nat × Nat))
    (st : TimesheetFileStore) : TimesheetFileStore × Except OtsError Unit :=
  ots_command cfg
    (fun s =>
      match resume now today idx s with
      | .error e => .error e
      | .ok s' => .ok (s', ())) st

/-- The `add` command (cli.py lines 104-131): date defaults to today before
the store is opened. -/
def add_command (cfg : Config) (today : Int) (task_code description : Option String)
    (date : Option Int) (duration : Option Nat) (task_id project_id : Option Int)
    (st : TimesheetFileStore) : TimesheetFileStore × Except OtsError Unit :=
  ots_command cfg
    (fun s => .ok (add_timesheet today task_code description date duration task_id project_id s,
      ())) st

/-- The `edit` command (cli.py lines 164-195): echoes "Timesheet updated."
when `edit_timesheet` reports a change and "Nothing to update." otherwise. -/
def edit_command (cfg : Config) (today : Int) (tok : Nat × Nat)
    (description : Option String) (duration : Option DurEdit) (code : Option String)
    (task_id project_id : Option Int) (st : TimesheetFileStore) :
    TimesheetFileStore × Except OtsError String :=
  ots_command cfg
    (fun s =>
      match edit_timesheet today tok description duration code task_id project_id s with
      | .error e => .error e
      | .ok r =>
          .ok (r.1, if r.2 then "Timesheet updated." else "Nothing to update.")) st

/-- The `transfer` command (cli.py lines 198-218): an unimplemented stub —
its body under the `ots_filestore` context manager is `pass`, so the only
store access is the shared open/migration path. The three arguments are
accepted and ignored. -/
def transfer_command (cfg : Config) (duration index_from index_to : String)
    (st : TimesheetFileStore) : TimesheetFileStore × Except OtsError Unit :=
  ots_command cfg (fun s => .ok (s, ())) st

/-- What a `drop` invocation did. -/
inductive DropResult where
  | aborted
  | dropped
  | failed (e : OtsError)
deriving Repr, DecidableEq

/-- The `drop` command (cli.py lines 221-241): without `--force` a
confirmation is asked before the store is opened; a declined confirmation
echoes "Timesheet drop aborted." and returns without touching the store. -/
def drop_command (cfg : Config) (today : Int) (tok : Nat × Nat)
    (force confirm : Bool) (st : TimesheetFileStore) : TimesheetFileStore × DropResult :=
  if !force && !confirm then (st, .aborted)
  else
    match ots_command cfg
        (fun s =>
          match drop_timesheet today tok s with
          | .error e => .error e
          | .ok s' => .ok (s', ())) st with
    | (st', .ok _) => (st', .dropped)
    | (st', .error e) => (st', .failed e)

/-- What a `push` invocation did: `pushed index date` records that
`timesheet_storage.push(index, date)` ran with those arguments. -/
inductive PushResult where
  | aborted
  | pushed (index : Option (Nat × Nat)) (date : Option Int)
  | failed (e : OtsError)
deriving Repr, DecidableEq

/-- The `push` command (cli.py lines 364-391). When both an index and a
date are given, cli.py line 381 constructs `click.UsageError(...)` without
raising it, so execution continues past it; without `--force` a declined
confirmation raises `click.Abort` before the store is opened; otherwise
`timesheet_storage.push(index, date)` runs. -/
def push_command (cfg : Config) (today : Int) (backend : Entry → Option Nat)
    (index : Option (Nat × Nat)) (dt : Option Int) (force confirm : Bool)
    (st : TimesheetFileStore) : TimesheetFileStore × PushResult :=
  if !force && !confirm then (st, .aborted)
  else
    match ots_command cfg
        (fun s =>
          match pushStore backend today index dt s with
          | .error e => .error e
          | .ok s' => .ok (s', ())) st with
    | (st', .ok _) => (st', .pushed index dt)
    | (st', .error e) => (st', .failed e)

/-- What an `alias update` invocation did: `updated name` records that
`timesheet_storage.update_alias(name)` ran with that argument. -/
inductive AliasUpdateResult where
  | helpPrinted
  | usageError
  | updated (name : Option String)
  | failed (e : OtsError)
deriving Repr, DecidableEq

/-- The `alias update` command (cli.py lines 341-361): with neither a name
nor `--all` it prints the help text and returns; with both it raises
`click.UsageError`; both happen before the store is opened. Otherwise
`update_alias(name)` runs (`name = none` for the `--all` form). -/
def alias_update_command (cfg : Config) (titles : Int → Option String)
    (name : Option String) (update_all : Bool) (st : TimesheetFileStore) :
    TimesheetFileStore × AliasUpdateResult :=
  if name.isNone && !update_all then (st, .helpPrinted)
  else if name.isSome && update_all then (st, .usageError)
  else
    match ots_command cfg (fun s => .ok (update_alias titles name s, ())) st with
    | (st', .ok _) => (st', .updated name)
    | (st', .error e) => (st', .failed e)

/-- The values the `login` command prompts for (cli.py lines 485-493). -/
structure LoginInput where
  hostname : String
  username : String
  ssl : Bool
  port : String
deriving Repr, DecidableEq

/-- `config.update({...})` of cli.py lines 494-500: the prompted values and
the `--database` option written into the configuration dictionary. -/
def updateLoginConfig (c : Config) (inp : LoginInput) (database : Option String) : Config :=
  { c with odoo_hostname := some inp.hostname, odoo_login := some inp.username,
           ssl := some inp.ssl, odoo_port := some inp.port, odoo_db := database }

/-- Everything observable of one `login` invocation: the configuration file
`_save_config` wrote, the store, and the login result. -/
structure LoginOutcome where
  savedConfig : Config
  store : TimesheetFileStore
  result : Except OtsError Nat
deriving Repr

/-- The `login` command (cli.py lines 469-514): the configuration is
updated and saved (cli.py lines 494-501) before the store is opened and
the remote login attempted. -/
def login_command (cfg : Config) (database : Option String) (inp : LoginInput)
    (backendUid : Option Nat) (st : TimesheetFileStore) : LoginOutcome :=
  let cfg' := updateLoginConfig cfg inp database
  match ots_command cfg' (storeLogin backendUid) st with
  | (st', .ok uid) => { savedConfig := cfg', store := st', result := .ok uid }
  | (st', .error e) => { savedConfig := cfg', store := st', result := .error e }

/-- One store-mutating CLI invocation, with the arguments the user passed
(the operations claim C1 quantifies over). -/
inductive Cmd where
  | start (task_code description : Option String) (task_id project_id : Option Int)
  | lunch
  | stop
  | resume (idx : Option (Nat × Nat))
  | add (task_code description : Option String) (date : Option Int) (duration : Option Nat)
      (task_id project_id : Option Int)
  | edit (tok : Nat × Nat) (description : Option String) (duration : Option DurEdit)
      (code : Option String) (task_id project_id : Option Int)
  | drop (tok : Nat × Nat) (force confirm : Bool)
deriving Repr

/-- Run one CLI invocation at a given wall clock (`now`) and calendar day
(`today`) and keep the store it leaves behind. -/
def runCmd (cfg : Config) (now : Nat) (today : Int) : Cmd → TimesheetFileStore → TimesheetFileStore
  | .start tc d ti pi, st => (start_command cfg now today tc d ti pi st).1
  | .lunch, st => (lunch_command cfg now today st).1
  | .stop, st => (stop_command cfg now st).1
  | .resume idx, st => (resume_command cfg now today idx st).1
  | .add tc d dt du ti pi, st => (add_command cfg today tc d dt du ti pi st).1
  | .edit tok d du c ti pi, st => (edit_command cfg today tok d du c ti pi st).1
  | .drop tok f c, st => (drop_command cfg today tok f c st).1

/-- Run a whole session: each invocation carries its own wall clock and
calendar day. -/
def runSession (cfg : Config) : List (Nat × Int × Cmd) → TimesheetFileStore → TimesheetFileStore
  | [], st => st
  | s :: rest, st => runSession cfg rest (runCmd cfg s.1 s.2.1 s.2.2 st)

/-- The store `_do_setup` creates on first use (cli.py lines 98-100): a
fresh `TimesheetFileStore()`, at the schema version the current code
writes. -/
def initialStore : TimesheetFileStore :=
  { days := [], aliases := [], prevRunning := [], schema_version := EXPECTED_SCHEMA_VERSION,
    session := none }

/-- A store holding one closed worktime entry on day 0, used to evaluate
the theorems at concrete inputs. -/
def sampleEntry : Entry :=
  { date := 0, task_code := some "T100", task_id := none, project_id := none,
    description := some "work", duration := 60, is_worktime := true, running := false,
    start_time := none, remote_ref := none }

/-- A concrete one-entry store at the expected schema version. -/
def sampleStore : TimesheetFileStore :=
  { days := [(0, [sampleEntry])], aliases := [], prevRunning := [],
    schema_version := EXPECTED_SCHEMA_VERSION, session := none }

/-- A concrete store one schema version behind the code. -/
def oldStore : TimesheetFileStore :=
  { days := [], aliases := [], prevRunning := [], schema_version := 0, session := none }

/-! ### Counting running entries -/

theorem countRunning_modifyIdx_le (f : Entry → Entry) (n : Nat) (es : List Entry) :
    countRunning (modifyIdx f n es) ≤ countRunning es + 1 := by
  induction es generalizing n with
  | nil => simp [modifyIdx]
  | cons e es ih =>
    cases n with
    | zero =>
        simp only [modifyIdx, countRunning]
        cases hf : (f e).running <;> cases he : e.running <;> simp <;> omega
    | succ m =>
        simp only [modifyIdx, countRunning]
        have := ih m
        omega

theorem countRunning_modifyIdx_eq (f : Entry → Entry) (hf : ∀ e, (f e).running = e.running)
    (n : Nat) (es : List Entry) : countRunning (modifyIdx f n es) = countRunning es := by
  induction es generalizing n with
  | nil => simp [modifyIdx]
  | cons e es ih =>
    cases n with
    | zero => simp only [modifyIdx, countRunning, hf e]
    | succ m => simp only [modifyIdx, countRunning, ih m]

theorem countRunning_removeIdx_le (n : Nat) (es : List Entry) :
    countRunning (removeIdx n es) ≤ countRunning es := by
  induction es generalizing n with
  | nil => simp [removeIdx]
  | cons e es ih =>
    cases n with
    | zero =>
        simp only [removeIdx, countRunning]
        omega
    | succ m =>
        simp only [removeIdx, countRunning]
        have := ih m
        omega

theorem countRunning_append (xs ys : List Entry) :
    countRunning (xs ++ ys) = countRunning xs + countRunning ys := by
  induction xs with
  | nil => simp [countRunning]
  | cons x xs ih =>
      show countRunning (x :: (xs ++ ys)) = countRunning (x :: xs) + countRunning ys
      simp only [countRunning, ih]
      omega

theorem countRunning_eq_zero_of_findRunningInDay_none (es : List Entry)
    (h : findRunningInDay es = none) : countRunning es = 0 := by
  induction es with
  | nil => rfl
  | cons e es ih =>
    by_cases he : e.running
    · simp [findRunningInDay, he] at h
    · simp [findRunningInDay, he] at h
      simp [countRunning, he, ih h]

theorem closeEntry_running (now : Nat) (e : Entry) (he : e.running = true) :
    (closeEntry now e).running = false := by
  simp [closeEntry, he]

theorem countRunning_close_findRunningInDay (now : Nat) (es : List Entry) (i : Nat)
    (h : findRunningInDay es = some i) :
    countRunning (modifyIdx (closeEntry now) i es) + 1 = countRunning es := by
  induction es generalizing i with
  | nil => simp [findRunningInDay] at h
  | cons e es ih =>
    by_cases he : e.running
    · simp [findRunningInDay, he] at h
      subst h
      simp only [modifyIdx, countRunning, closeEntry_running now e he, he]
      simp
      omega
    · simp [findRunningInDay, he] at h
      obtain ⟨j, hfe, hj⟩ := h
      subst hj
      simp only [modifyIdx, countRunning]
      have := ih j hfe
      omega

theorem countDays_modifyDay_le_succ (f : List Entry → List Entry)
    (hf : ∀ es, countRunning (f es) ≤ countRunning es + 1) (d : Int) (days : Days) :
    countDays (modifyDay f d days) ≤ countDays days + 1 := by
  induction days with
  | nil => simp [modifyDay]
  | cons p rest ih =>
    obtain ⟨d', es⟩ := p
    by_cases hd : d' = d
    · simp only [modifyDay, hd, if_true, countDays]
      have := hf es
      omega
    · simp only [modifyDay, hd, if_false, countDays]
      omega

theorem countDays_modifyDay_eq (f : List Entry → List Entry)
    (hf : ∀ es, countRunning (f es) = countRunning es) (d : Int) (days : Days) :
    countDays (modifyDay f d days) = countDays days := by
  induction days with
  | nil => simp [modifyDay]
  | cons p rest ih =>
    obtain ⟨d', es⟩ := p
    by_cases hd : d' = d
    · simp only [modifyDay, hd, if_true, countDays, hf es]
    · simp only [modifyDay, hd, if_false, countDays, ih]

theorem countDays_modifyDay_le (f : List Entry → List Entry)
    (hf : ∀ es, countRunning (f es) ≤ countRunning es) (d : Int) (days : Days) :
    countDays (modifyDay f d days) ≤ countDays days := by
  induction days with
  | nil => simp [modifyDay]
  | cons p rest ih =>
    obtain ⟨d', es⟩ := p
    by_cases hd : d' = d
    · simp only [modifyDay, hd, if_true, countDays]
      have := hf es
      omega
    · simp only [modifyDay, hd, if_false, countDays]
      omega

theorem countDays_appendToDay (d : Int) (e : Entry) (days : Days) :
    countDays (appendToDay d e days) = countDays days + (if e.running then 1 else 0) := by
  induction days with
  | nil =>
      simp only [appendToDay, countDays, countRunning]
      omega
  | cons p rest ih =>
    obtain ⟨d', es⟩ := p
    by_cases hd : d' = d
    · simp only [appendToDay, hd, if_true, countDays, countRunning_append]
      simp only [countRunning]
      omega
    · simp only [appendToDay, hd, if_false, countDays, ih]
      omega

theorem stopDays_snd_none (now : Nat) (days : Days) (h : (stopDays now days).2 = none) :
    (stopDays now days).1 = days ∧ countDays days = 0 := by
  induction days with
  | nil => simp [stopDays, countDays]
  | cons p rest ih =>
    obtain ⟨d, es⟩ := p
    cases hf : findRunningInDay es with
    | some i => simp [stopDays, hf] at h
    | none =>
        simp only [stopDays, hf] at h ⊢
        have hz := countRunning_eq_zero_of_findRunningInDay_none es hf
        have := ih h
        simp only [countDays]
        constructor
        · simp [this.1]
        · omega

theorem stopDays_snd_some (now : Nat) (days : Days) (r : Int × Nat)
    (h : (stopDays now days).2 = some r) :
    countDays (stopDays now days).1 + 1 = countDays days := by
  induction days with
  | nil => simp [stopDays] at h
  | cons p rest ih =>
    obtain ⟨d, es⟩ := p
    cases hf : findRunningInDay es with
    | some i =>
        simp only [stopDays, hf, countDays]
        have := countRunning_close_findRunningInDay now es i hf
        omega
    | none =>
        simp only [stopDays, hf] at h ⊢
        simp only [countDays]
        have := ih h
        omega

theorem countDays_stopDays (now : Nat) (days : Days) (h : countDays days ≤ 1) :
    countDays (stopDays now days).1 = 0 := by
  cases h2 : (stopDays now days).2 with
  | none =>
      have := stopDays_snd_none now days h2
      rw [this.1]
      exact this.2
  | some r =>
      have := stopDays_snd_some now days r h2
      omega

theorem stop_running_days (now : Nat) (st : TimesheetFileStore) :
    (stop_running now st).days = (stopDays now st.days).1 := rfl

theorem countRunningStore_stop_running (now : Nat) (st : TimesheetFileStore)
    (h : countRunningStore st ≤ 1) : countRunningStore (stop_running now st) = 0 := by
  show countDays (stop_running now st).days = 0
  rw [stop_running_days]
  exact countDays_stopDays now st.days h

theorem countRunningStore_add_and_start (now : Nat) (today : Int)
    (tc d : Option String) (ti pi : Option Int) (iw : Bool) (st : TimesheetFileStore)
    (h : countRunningStore st ≤ 1) :
    countRunningStore (add_and_start_timesheet now today tc d ti pi iw st) ≤ 1 := by
  show countDays (add_and_start_timesheet now today tc d ti pi iw st).days ≤ 1
  have hstop := countRunningStore_stop_running now st h
  simp only [add_and_start_timesheet]
  rw [countDays_appendToDay]
  simp only [if_true]
  have : countDays (stop_running now st).days = 0 := hstop
  omega

theorem countRunningStore_setRunningAt_le (now : Nat) (a : Int × Nat)
    (st : TimesheetFileStore) :
    countRunningStore (setRunningAt now a st) ≤ countRunningStore st + 1 := by
  show countDays (setRunningAt now a st).days ≤ countDays st.days + 1
  simp only [setRunningAt]
  exact countDays_modifyDay_le_succ _ (fun es => countRunning_modifyIdx_le _ _ es) _ _

theorem countRunningStore_resume (now : Nat) (today : Int) (idx : Option (Nat × Nat))
    (st st' : TimesheetFileStore) (h : countRunningStore st ≤ 1)
    (hr : resume now today idx st = .ok st') : countRunningStore st' ≤ 1 := by
  cases idx with
  | some tok =>
      simp only [resume] at hr
      cases ha : resolveAddr today tok st.days with
      | none => rw [ha] at hr; exact absurd hr (by simp)
      | some a =>
          rw [ha] at hr
          simp only [Except.ok.injEq] at hr
          subst hr
          have h0 := countRunningStore_stop_running now st h
          have := countRunningStore_setRunningAt_le now a (stop_running now st)
          omega
  | none =>
      simp only [resume] at hr
      cases hp : st.prevRunning with
      | nil => rw [hp] at hr; exact absurd hr (by simp)
      | cons a rest =>
          rw [hp] at hr
          simp only [Except.ok.injEq] at hr
          subst hr
          have hsame : countRunningStore { st with prevRunning := rest } = countRunningStore st :=
            rfl
          have h0 := countRunningStore_stop_running now { st with prevRunning := rest }
            (by rw [hsame]; exact h)
          have := countRunningStore_setRunningAt_le now a
            (stop_running now { st with prevRunning := rest })
          omega

theorem edited_running (e : Entry) (d : Option String) (du : Option DurEdit)
    (tc : Option String) (ti pi : Option Int) :
    (Entry.edited e d du tc ti pi).running = e.running := rfl

theorem countRunningStore_edit (today : Int) (tok : Nat × Nat) (d : Option String)
    (du : Option DurEdit) (tc : Option String) (ti pi : Option Int)
    (st st' : TimesheetFileStore) (b : Bool)
    (hr : edit_timesheet today tok d du tc ti pi st = .ok (st', b)) :
    countRunningStore st' = countRunningStore st := by
  simp only [edit_timesheet] at hr
  cases ha : resolveAddr today tok st.days with
  | none => rw [ha] at hr; exact absurd hr (by simp)
  | some a =>
      rw [ha] at hr
      simp only [Except.ok.injEq, Prod.mk.injEq] at hr
      obtain ⟨hst, _⟩ := hr
      subst hst
      show countDays _ = countDays st.days
      exact countDays_modifyDay_eq _
        (fun es => countRunning_modifyIdx_eq _ (fun e => edited_running e d du tc ti pi) _ es) _ _

theorem countRunningStore_drop (today : Int) (tok : Nat × Nat)
    (st st' : TimesheetFileStore) (hr : drop_timesheet today tok st = .ok st') :
    countRunningStore st' ≤ countRunningStore st := by
  simp only [drop_timesheet] at hr
  cases ha : resolveAddr today tok st.days with
  | none => rw [ha] at hr; exact absurd hr (by simp)
  | some a =>
      rw [ha] at hr
      simp only [Except.ok.injEq] at hr
      subst hr
      show countDays _ ≤ countDays st.days
      exact countDays_modifyDay_le _ (fun es => countRunning_removeIdx_le _ es) _ _

theorem countRunningStore_add_timesheet (today : Int) (tc d : Option String)
    (dt : Option Int) (du : Option Nat) (ti pi : Option Int) (st : TimesheetFileStore) :
    countRunningStore (add_timesheet today tc d dt du ti pi st) = countRunningStore st := by
  show countDays _ = countDays st.days
  simp only [add_timesheet]
  rw [countDays_appendToDay]
  simp

theorem runMigrations_days (n : Nat) (st : TimesheetFileStore) :
    (runMigrations n st).days = st.days := by
  induction n generalizing st with
  | zero => rfl
  | succ m ih => simp only [runMigrations]; rw [ih]; rfl

theorem check_and_migrate_count (am : Bool) (st st1 : TimesheetFileStore)
    (h : check_and_migrate am st = .ok st1) :
    countRunningStore st1 = countRunningStore st := by
  simp only [check_and_migrate] at h
  split at h
  · simp only [Except.ok.injEq] at h; subst h; rfl
  · split at h
    · split at h
      · simp only [Except.ok.injEq] at h
        subst h
        show countDays (runMigrations _ st).days = countDays st.days
        rw [runMigrations_days]
      · exact absurd h (by simp)
    · exact absurd h (by simp)

theorem countRunningStore_ots_command {α : Type} (cfg : Config)
    (body : TimesheetFileStore → Except OtsError (TimesheetFileStore × α))
    (st : TimesheetFileStore)
    (hbody : ∀ s r, countRunningStore s ≤ 1 → body s = .ok r → countRunningStore r.1 ≤ 1)
    (h : countRunningStore st ≤ 1) : countRunningStore (ots_command cfg body st).1 ≤ 1 := by
  cases hm : check_and_migrate (effectiveAutoMigrate cfg) st with
  | error e => simp only [ots_command, hm]; exact h
  | ok st1 =>
      cases hb : body st1 with
      | error e => simp only [ots_command, hm, hb]; exact h
      | ok r =>
          simp only [ots_command, hm, hb]
          exact hbody st1 r (by rw [check_and_migrate_count _ _ _ hm]; exact h) hb

theorem countRunningStore_runCmd (cfg : Config) (now : Nat) (today : Int) (c : Cmd)
    (st : TimesheetFileStore) (h : countRunningStore st ≤ 1) :
    countRunningStore (runCmd cfg now today c st) ≤ 1 := by
  cases c with
  | start tc d ti pi =>
      simp only [runCmd, start_command]
      refine countRunningStore_ots_command cfg _ st (fun s r hs hr => ?_) h
      simp only [Except.ok.injEq] at hr
      subst hr
      exact countRunningStore_add_and_start now today tc d ti pi true s hs
  | lunch =>
      simp only [runCmd, lunch_command]
      refine countRunningStore_ots_command cfg _ st (fun s r hs hr => ?_) h
      simp only [Except.ok.injEq] at hr
      subst hr
      exact countRunningStore_add_and_start now today none (some "Lunch") none none false s hs
  | stop =>
      simp only [runCmd, stop_command]
      refine countRunningStore_ots_command cfg _ st (fun s r hs hr => ?_) h
      simp only [Except.ok.injEq] at hr
      subst hr
      have := countRunningStore_stop_running now s hs
      show countRunningStore (stop_running now s) ≤ 1
      omega
  | resume idx =>
      simp only [runCmd, resume_command]
      refine countRunningStore_ots_command cfg _ st (fun s r hs hr => ?_) h
      cases hres : resume now today idx s with
      | error e => rw [hres] at hr; exact absurd hr (by simp)
      | ok s' =>
          rw [hres] at hr
          simp only [Except.ok.injEq] at hr
          subst hr
          exact countRunningStore_resume now today idx s s' hs hres
  | add tc d dt du ti pi =>
      simp only [runCmd, add_command]
      refine countRunningStore_ots_command cfg _ st (fun s r hs hr => ?_) h
      simp only [Except.ok.injEq] at hr
      subst hr
      rw [show countRunningStore ((add_timesheet today tc d dt du ti pi s, ()) :
            TimesheetFileStore × Unit).1 = countRunningStore s from
          countRunningStore_add_timesheet today tc d dt du ti pi s]
      exact hs
  | edit tok d du code ti pi =>
      simp only [runCmd, edit_command]
      refine countRunningStore_ots_command cfg _ st (fun s r hs hr => ?_) h
      cases hres : edit_timesheet today tok d du code ti pi s with
      | error e => rw [hres] at hr; exact absurd hr (by simp)
      | ok rr =>
          obtain ⟨st', b⟩ := rr
          rw [hres] at hr
          simp only [Except.ok.injEq] at hr
          subst hr
          rw [show countRunningStore ((st', if b then "Timesheet updated."
                else "Nothing to update.") : TimesheetFileStore × String).1
              = countRunningStore st' from rfl]
          rw [countRunningStore_edit today tok d du code ti pi s st' b hres]
          exact hs
  | drop tok force confirm =>
      simp only [runCmd, drop_command]
      by_cases hfc : (!force && !confirm) = true
      · rw [if_pos hfc]
        exact h
      · rw [if_neg hfc]
        have hcmd := countRunningStore_ots_command cfg
          (fun s =>
            match drop_timesheet today tok s with
            | .error e => .error e
            | .ok s' => .ok (s', ())) st
          (fun s r hs hr => by
            dsimp only at hr
            cases hres : drop_timesheet today tok s with
            | error e => rw [hres] at hr; exact absurd hr (by simp)
            | ok s' =>
                rw [hres] at hr
                simp only [Except.ok.injEq] at hr
                subst hr
                have := countRunningStore_drop today tok s s' hres
                show countRunningStore s' ≤ 1
                omega) h
        cases hoc : ots_command cfg
            (fun s =>
              match drop_timesheet today tok s with
              | .error e => .error e
              | .ok s' => .ok (s', ())) st with
        | mk st' res =>
            rw [hoc] at hcmd
            cases res <;> exact hcmd

theorem countRunningStore_runSession (cfg : Config) (script : List (Nat × Int × Cmd))
    (st : TimesheetFileStore) (h : countRunningStore st ≤ 1) :
    countRunningStore (runSession cfg script st) ≤ 1 := by
  induction script generalizing st with
  | nil => exact h
  | cons s rest ih =>
      exact ih _ (countRunningStore_runCmd cfg s.1 s.2.1 s.2.2 st h)

theorem getDay_appendToDay (d : Int) (e : Entry) (days : Days) :
    getDay d (appendToDay d e days) = getDay d days ++ [e] := by
  induction days with
  | nil => simp [appendToDay, getDay]
  | cons p rest ih =>
    obtain ⟨d', es⟩ := p
    by_cases hd : d' = d
    · simp [appendToDay, getDay, hd]
    · simp [appendToDay, getDay, hd, ih]

theorem getLast?_append_singleton (xs : List Entry) (e : Entry) :
    (xs ++ [e]).getLast? = some e :=
  List.getLast?_concat xs

/-! ### The claims -/

/-- Claim C1: after every sequence of CLI operations (start, lunch, stop, resume,
add, edit, drop) run from a fresh store, at most one entry across the
entire store has `running = true`. -/
theorem single_running_invariant (cfg : Config) (script : List (Nat × Int × Cmd)) :
    countRunningStore (runSession cfg script initialStore) ≤ 1 :=
  countRunningStore_runSession cfg script initialStore (by decide)

/-- Claim C2: every command that opens the store runs the migration check with the
configured `auto_migrate` flag before its core operation and inside the same
transaction: a successful command's body ran on the migrated store, and any
failure (of the migration check or of the body) leaves the original store
untouched rather than partially committed. -/
theorem migration_first_and_atomic {α : Type} (cfg : Config)
    (body : TimesheetFileStore → Except OtsError (TimesheetFileStore × α))
    (st : TimesheetFileStore) :
    (∀ e, (ots_command cfg body st).2 = .error e → (ots_command cfg body st).1 = st)
    ∧ (∀ st2 a, ots_command cfg body st = (st2, .ok a) →
        ∃ st1, check_and_migrate (effectiveAutoMigrate cfg) st = .ok st1
          ∧ body st1 = .ok (st2, a)) := by
  cases hm : check_and_migrate (effectiveAutoMigrate cfg) st with
  | error e0 =>
      constructor
      · intro e _; simp [ots_command, hm]
      · intro st2 a h; simp [ots_command, hm] at h
  | ok st1 =>
      cases hb : body st1 with
      | error e0 =>
          constructor
          · intro e _; simp [ots_command, hm, hb]
          · intro st2 a h; simp [ots_command, hm, hb] at h
      | ok r =>
          obtain ⟨rst, ra⟩ := r
          constructor
          · intro e h; simp [ots_command, hm, hb] at h
          · intro st2 a h
            simp only [ots_command, hm, hb, Prod.mk.injEq, Except.ok.injEq] at h
            obtain ⟨h1, h2⟩ := h
            refine ⟨st1, rfl, ?_⟩
            rw [hb, h1, h2]

/-- Claim C3: with both an index and a date supplied, the push command still
invokes the store's push with both arguments — cli.py line 381 constructs
the `click.UsageError` without raising it, so no usage error interrupts the
command. -/
theorem push_both_index_and_date_invokes_push :
    (push_command emptyConfig 0 (fun _ => some 7) (some (0, 0)) (some 0) true true
      sampleStore).2 = PushResult.pushed (some (0, 0)) (some 0) := by decide

/-- Claim C4, counterexample: invoking transfer does not always leave the store
unchanged — on a store one schema version behind, the shared open path
migrates it. -/
theorem transfer_migrates_old_store :
    (transfer_command emptyConfig "01:00" "0" "1" oldStore).1 ≠ oldStore := by decide

/-- Claim C4 as amended: transfer is a stub performing no operation of its own:
on any store already at the expected schema version — where the shared
open/migration path is a no-op — every invocation leaves the timesheet
store completely unchanged. -/
theorem transfer_command_no_effect (cfg : Config) (dur f t : String)
    (st : TimesheetFileStore) (h : st.schema_version = EXPECTED_SCHEMA_VERSION) :
    (transfer_command cfg dur f t st).1 = st := by
  simp [transfer_command, ots_command, check_and_migrate, h]

/-- Witness for the amended C4 at a concrete input. -/
theorem transfer_command_no_effect_witness :
    (transfer_command emptyConfig "00:30" "0" "1" sampleStore).1 = sampleStore :=
  transfer_command_no_effect emptyConfig "00:30" "0" "1" sampleStore rfl

/-- Claim C5: the edit command reports "Timesheet updated." iff the store's
`edit_timesheet` returned `true`, and "Nothing to update." iff it returned
`false`. -/
theorem edit_command_message (cfg : Config) (today : Int) (tok : Nat × Nat)
    (d : Option String) (du : Option DurEdit) (code : Option String)
    (ti pi : Option Int) (st st1 st2 : TimesheetFileStore) (b : Bool)
    (hm : check_and_migrate (effectiveAutoMigrate cfg) st = .ok st1)
    (he : edit_timesheet today tok d du code ti pi st1 = .ok (st2, b)) :
    ((edit_command cfg today tok d du code ti pi st).2 = .ok "Timesheet updated."
        ↔ b = true)
    ∧ ((edit_command cfg today tok d du code ti pi st).2 = .ok "Nothing to update."
        ↔ b = false) := by
  simp only [edit_command, ots_command, hm, he]
  cases b <;> simp

/-- A store differing from `sampleStore` only in the sample entry's
description, used to evaluate C5 at a concrete input. -/
def sampleStoreEdited : TimesheetFileStore :=
  { sampleStore with days := [(0, [{ sampleEntry with description := some "x" }])] }

/-- Witness for C5 at a concrete input on which a field actually changes. -/
theorem edit_command_message_witness :
    ((edit_command emptyConfig 0 (0, 0) (some "x") none none none none sampleStore).2
        = .ok "Timesheet updated." ↔ true = true)
    ∧ ((edit_command emptyConfig 0 (0, 0) (some "x") none none none none sampleStore).2
        = .ok "Nothing to update." ↔ true = false) :=
  edit_command_message emptyConfig 0 (0, 0) (some "x") none none none none
    sampleStore sampleStore sampleStoreEdited true rfl rfl

/-- Claim C6: drop and push invoked without `--force` and with the confirmation
declined perform no store operation at all: the command returns the store
unchanged with the aborted result, never reaching the `ots_filestore` open
path (which alone produces the other results). -/
theorem drop_push_decline_no_store_op (cfg : Config) (today : Int) (tok : Nat × Nat)
    (backend : Entry → Option Nat) (index : Option (Nat × Nat)) (dt : Option Int)
    (st : TimesheetFileStore) :
    drop_command cfg today tok false false st = (st, .aborted)
    ∧ push_command cfg today backend index dt false false st = (st, .aborted) :=
  ⟨rfl, rfl⟩

/-- Claim C7: alias update requires exactly one of a name or the `--all` flag:
given both it fails with a usage error without opening the store; given
neither it prints the help text and performs no store operation; given
exactly one it invokes the alias refresh operation with that argument. -/
theorem alias_update_exactly_one (cfg : Config) (titles : Int → Option String)
    (nm : String) (st : TimesheetFileStore) :
    alias_update_command cfg titles (some nm) true st = (st, .usageError)
    ∧ alias_update_command cfg titles none false st = (st, .helpPrinted)
    ∧ (∀ st1, check_and_migrate (effectiveAutoMigrate cfg) st = .ok st1 →
        alias_update_command cfg titles (some nm) false st
          = (update_alias titles (some nm) st1, .updated (some nm))
        ∧ alias_update_command cfg titles none true st
          = (update_alias titles none st1, .updated none)) := by
  refine ⟨rfl, rfl, fun st1 hm => ⟨?_, ?_⟩⟩
  · simp [alias_update_command, ots_command, hm]
  · simp [alias_update_command, ots_command, hm]

/-- Claim C8: the lunch command creates and starts a running entry with
description "Lunch" and `is_worktime = false`: it is the last entry of
today's day log in the store lunch leaves behind. -/
theorem lunch_command_entry (cfg : Config) (now : Nat) (today : Int)
    (st st1 : TimesheetFileStore)
    (hm : check_and_migrate (effectiveAutoMigrate cfg) st = .ok st1) :
    ∃ e : Entry, (getDay today (lunch_command cfg now today st).1.days).getLast? = some e
      ∧ e.description = some "Lunch" ∧ e.is_worktime = false ∧ e.running = true
      ∧ e.start_time = some now := by
  simp only [lunch_command, ots_command, hm]
  dsimp only [add_and_start_timesheet]
  rw [getDay_appendToDay, getLast?_append_singleton]
  exact ⟨_, rfl, rfl, rfl, rfl, rfl⟩

/-- Witness for C8 at a concrete input. -/
theorem lunch_command_entry_witness :
    ∃ e : Entry, (getDay 0 (lunch_command emptyConfig 5 0 sampleStore).1.days).getLast?
        = some e
      ∧ e.description = some "Lunch" ∧ e.is_worktime = false ∧ e.running = true
      ∧ e.start_time = some 5 :=
  lunch_command_entry emptyConfig 5 0 sampleStore sampleStore rfl

/-- Claim C9: with no `auto_migrate` key configured (absent configuration file or
absent key), the open path calls the migration check with
`auto_migrate = true`: automatic migration is the default, not opt-in. -/
theorem auto_migrate_defaults_true {α : Type} (cfg : Config)
    (body : TimesheetFileStore → Except OtsError (TimesheetFileStore × α))
    (st : TimesheetFileStore) (h : cfg.auto_migrate = none) :
    effectiveAutoMigrate cfg = true
    ∧ ots_command cfg body st
        = ots_command { cfg with auto_migrate := some true } body st := by
  have ht : effectiveAutoMigrate cfg = true := by simp [effectiveAutoMigrate, h]
  refine ⟨ht, ?_⟩
  simp only [ots_command, ht]
  rfl

/-- Witness for C9 at a concrete input: the empty configuration (an absent
file) migrates an old store rather than refusing. -/
theorem auto_migrate_defaults_true_witness :
    effectiveAutoMigrate emptyConfig = true
    ∧ ots_command emptyConfig (fun s => Except.ok (s, 0)) oldStore
        = ots_command { emptyConfig with auto_migrate := some true }
            (fun s => Except.ok (s, 0)) oldStore :=
  auto_migrate_defaults_true emptyConfig (fun s => Except.ok (s, 0)) oldStore rfl

/-- Claim C10: login writes the entered hostname, username, ssl flag, port and
database into the configuration before attempting the remote login, so the
configuration file holds the new values even when the login attempt fails
(the command is not atomic with respect to the saved configuration). -/
theorem login_saves_config_before_login (cfg : Config) (database : Option String)
    (inp : LoginInput) (backendUid : Option Nat) (st : TimesheetFileStore) :
    (login_command cfg database inp backendUid st).savedConfig
        = updateLoginConfig cfg inp database
    ∧ (backendUid = none →
        ∃ e, (login_command cfg database inp backendUid st).result = .error e) := by
  constructor
  · simp only [login_command]
    cases hoc : ots_command (updateLoginConfig cfg inp database) (storeLogin backendUid) st with
    | mk st' res => cases res <;> rfl
  · intro hb
    subst hb
    simp only [login_command]
    cases hm : check_and_migrate
        (effectiveAutoMigrate (updateLoginConfig cfg inp database)) st with
    | error e =>
        refine ⟨e, ?_⟩
        simp [ots_command, hm]
    | ok st1 =>
        refine ⟨.AuthError, ?_⟩
        simp [ots_command, hm, storeLogin]

end Ots
